import Mathlib

/-!
# GravityRustBackend — shallow embedding and verification

This file embeds the control surface of the GravityRustBackend server
(`src/routes.rs`, `src/handlers.rs`, `src/main.rs`) in Lean 4 and proves
properties of it.  JSON request bodies are modelled by an inductive `Value`
mirroring `serde_json::Value` (numbers as rationals).  The physics module
`space_computation.rs` is not part of the sources; following the spec, the
`Simulation` is treated as an external collaborator: its record of fields is
modelled from the spec and from its uses in the sources, and its fallible
constructors (`SpaceObject::new`, `Simulation::new`) are abstracted as
oracles bundled in `Ext`, so every theorem holds for every behaviour of the
physics module.

Shared-memory maps (`HashMap` under a `Mutex`) are embedded as functions
`String → Option _`; the sequencing of registry side effects is recorded in
an explicit action trace (`Act`), and the worker loop's interleaving with
the atomic stop flag is embedded by indexing each load of the flag
(`simulateLoop`), so that cooperative-cancellation claims become statements
about the event trace of a run.
-/

namespace GravityBackend

/-- JSON values, mirroring `serde_json::Value`.  Numbers are modelled as
rationals (the claims under study do not depend on binary floating point). -/
inductive Value where
  | null : Value
  | boolean : Bool → Value
  | num : ℚ → Value
  | str : String → Value
  | arr : List Value → Value
  | obj : List (String × Value) → Value

/-- Indexing `v[key]` on a JSON value: field lookup, `Null` when absent or when `v`
is not an object (serde's non-panicking `Index` behaviour). -/
def Value.get (v : Value) (k : String) : Value :=
  match v with
  | .obj fields =>
    match fields.find? (fun p => p.1 == k) with
    | some p => p.2
    | none => .null
  | _ => .null

/-- Mirrors `Value::as_str`. -/
def Value.as_str : Value → Option String
  | .str s => some s
  | _ => none

/-- Mirrors `Value::as_f64` (every JSON number converts). -/
def Value.as_f64 : Value → Option ℚ
  | .num q => some q
  | _ => none

/-- Mirrors `Value::as_i64` (integral numbers only). -/
def Value.as_i64 : Value → Option ℤ
  | .num q => if q.den = 1 then some q.num else none
  | _ => none

/-- Mirrors `Value::as_array`. -/
def Value.as_array : Value → Option (List Value)
  | .arr xs => some xs
  | _ => none

/-- Modelled from the spec: the movement kind of a body, one of
static / gravitational / controllable (`space_computation.rs` is not among
the sources; the variant `Static` is named in `routes.rs`). -/
inductive MovementType where
  | static : MovementType
  | gravitational : MovementType
  | controllable : MovementType
deriving DecidableEq

/-- Modelled from the spec: the four independent boolean directional flags
of the controllable body (field names from `handlers.rs`). -/
structure ControllableAcceleration where
  up : Bool
  down : Bool
  left : Bool
  right : Bool
deriving DecidableEq

/-- Modelled from the spec: one body of the simulation (field names from
`routes.rs`: name, mass, radius, position, velocity, movement type). -/
structure SpaceObject where
  name : String
  mass : ℚ
  radius : ℚ
  posX : ℚ
  posY : ℚ
  velX : ℚ
  velY : ℚ
  movement_type : MovementType
deriving DecidableEq

/-- Modelled from the spec: the collision policy, coded as an integer. -/
def CollisionType := ℤ
deriving DecidableEq

/-- Modelled from the spec: the simulation state record.  Field names are
exactly those read by `routes.rs` and `handlers.rs` (`time_delta`,
`simulation_time`, `g`, `acceleration_rate`, `elasticity_coefficient`,
`collision_type`, `space_objects`, `controllable_acceleration`).  The
integrator `calculate_step` is abstracted away: the worker-loop embedding
below only counts its invocations. -/
structure Simulation where
  time_delta : ℚ
  simulation_time : ℚ
  g : ℚ
  acceleration_rate : ℚ
  elasticity_coefficient : ℚ
  collision_type : CollisionType
  space_objects : List SpaceObject
  controllable_acceleration : Option ControllableAcceleration
deriving DecidableEq

/-- A pool registry entry: `SimulationExecutionPool` from `main.rs`.
The `Arc<Mutex<_>>` sharing is flattened: `stopFlag` records the value of
the atomic, `joined` whether the worker thread has been joined. -/
structure Pool where
  simulation : Simulation
  stopFlag : Bool
  joined : Bool
deriving DecidableEq

/-- The pool registry `pools: HashMap<UserId, SimulationExecutionPool>`. -/
def PoolMap := String → Option Pool

/-- The connection table `sockets: HashMap<UserId, SocketRef>`; the sink
itself is an opaque capability, modelled as `Unit`. -/
def SockMap := String → Option Unit

/-- Mirrors `AppState` from `main.rs`. -/
structure ServerState where
  pools : PoolMap
  sockets : SockMap

/-- Observable registry side effects, in program order. -/
inductive Act where
  | poolRemoved : String → Act
  | stopSet : String → Act
  | workerJoined : String → Act
  | simConstructed : Act
  | workerSpawned : Act
  | poolInserted : String → Act
  | socketRemoved : String → Act
deriving DecidableEq

/-- Result of `stop_execution_pool`: the new registry, the extracted pool in
its final state (stop flag stored, worker joined) when one existed, and the
trace of effects. -/
structure StopResult where
  pools : PoolMap
  torn : Option Pool
  acts : List Act

/-- Mirrors `stop_execution_pool` (`main.rs` lines 40–46): remove the entry if
present; store `true` into its stop flag; join its worker. -/
def stop_execution_pool (pools : PoolMap) (uid : String) : StopResult :=
  match pools uid with
  | some p =>
    { pools := fun k => if k = uid then none else pools k
      torn := some { p with stopFlag := true, joined := true }
      acts := [Act.poolRemoved uid, Act.stopSet uid, Act.workerJoined uid] }
  | none => { pools := pools, torn := none, acts := [] }

/-- An HTTP response: status code and JSON body. -/
structure Resp where
  status : ℕ
  body : Value

/-- The body `{"status": "success"}`. -/
def successBody : Value := .obj [("status", .str "success")]

/-- The body `{"status": "error", "message": m}`. -/
def errBody (m : String) : Value :=
  .obj [("status", .str "error"), ("message", .str m)]

/-- The external physics collaborators (`space_computation.rs` is not among
the sources): default parameter values, the integer decodings of the enums,
and the two fallible constructors.  All theorems below are stated for every
`Ext`. -/
structure Ext where
  defaultSim : Simulation
  movementTryFrom : ℤ → Option MovementType
  collisionTryFrom : ℤ → Option CollisionType
  objNew : String → ℚ → ℚ → ℚ × ℚ → ℚ × ℚ → MovementType →
    Except String SpaceObject
  simNew : List SpaceObject → ℚ → ℚ → ℚ → CollisionType → ℚ → ℚ →
    Except String Simulation

/-- Mirrors `data["user_id"].as_str().unwrap_or_default()` — the user id of a
request, the empty string when the field is missing or not a string. -/
def extractUid (data : Value) : String :=
  ((data.get "user_id").as_str).getD ""

/-- One element of `space_objects` (`routes.rs` lines 59–93): each field
falls back to its documented default, the movement type decodes through
`try_from` with fallback `Static`, and `SpaceObject::new` may fail. -/
def parseObject (ext : Ext) (od : Value) : Except String SpaceObject :=
  let px := (((od.get "position").get "x").as_f64).getD 0
  let py := (((od.get "position").get "y").as_f64).getD 0
  let vx := (((od.get "velocity").get "x").as_f64).getD 0
  let vy := (((od.get "velocity").get "y").as_f64).getD 0
  let mt := (ext.movementTryFrom (((od.get "movement_type").as_i64).getD 0)).getD
    MovementType.static
  ext.objNew (((od.get "name").as_str).getD "Unnamed") (((od.get "mass").as_f64).getD 1)
    (((od.get "radius").as_f64).getD 1) (px, py) (vx, vy) mt

/-- The `space_objects` array (`routes.rs` lines 56–96): absent or
non-array yields the empty list; the first failing `SpaceObject::new`
aborts with its error. -/
def parseObjects (ext : Ext) (data : Value) : Except String (List SpaceObject) :=
  match (data.get "space_objects").as_array with
  | none => Except.ok []
  | some xs => xs.mapM (parseObject ext)

/-- Result of a `launch_simulation` or `delete_simulation` request. -/
structure ReqResult where
  resp : Resp
  state : ServerState
  acts : List Act

/-- Mirrors `data["time_delta"].as_f64().unwrap_or(simulation.time_delta)`
(`routes.rs` line 28, defaults from `Simulation::default()`). -/
def reqTimeDelta (ext : Ext) (data : Value) : ℚ :=
  ((data.get "time_delta").as_f64).getD ext.defaultSim.time_delta

/-- Mirrors `routes.rs` lines 29–31. -/
def reqSimulationTime (ext : Ext) (data : Value) : ℚ :=
  ((data.get "simulation_time").as_f64).getD ext.defaultSim.simulation_time

/-- Mirrors `routes.rs` line 32. -/
def reqG (ext : Ext) (data : Value) : ℚ :=
  ((data.get "G").as_f64).getD ext.defaultSim.g

/-- Mirrors `routes.rs` lines 33–35. -/
def reqAccelerationRate (ext : Ext) (data : Value) : ℚ :=
  ((data.get "acceleration_rate").as_f64).getD ext.defaultSim.acceleration_rate

/-- Mirrors `routes.rs` lines 36–38. -/
def reqElasticity (ext : Ext) (data : Value) : ℚ :=
  ((data.get "elasticity_coefficient").as_f64).getD ext.defaultSim.elasticity_coefficient

/-- Mirrors `routes.rs` lines 39–42. -/
def reqCollision (ext : Ext) (data : Value) : CollisionType :=
  (((data.get "collision_type").as_i64).bind ext.collisionTryFrom).getD
    ext.defaultSim.collision_type

/-- Mirrors `launch_simulation` (`routes.rs` lines 21–133).  In source order:
extract `user_id`; unconditionally `stop_execution_pool`; resolve the
scalar parameters against `Simulation::default()` (the `req…` definitions
above); look the socket up (400 "Socket is not connected" when absent);
parse `space_objects` (400 on a failing `SpaceObject::new`); call
`Simulation::new` (400 on failure); on success spawn the worker and insert
the new pool. -/
def launch_simulation (ext : Ext) (st : ServerState) (data : Value) : ReqResult :=
  let uid := extractUid data
  let r0 := stop_execution_pool st.pools uid
  match st.sockets uid with
  | none =>
    { resp := ⟨400, errBody "Socket is not connected"⟩
      state := { pools := r0.pools, sockets := st.sockets }
      acts := r0.acts }
  | some _ =>
    match parseObjects ext data with
    | Except.error err =>
      { resp := ⟨400, errBody err⟩
        state := { pools := r0.pools, sockets := st.sockets }
        acts := r0.acts }
    | Except.ok objs =>
      match ext.simNew objs (reqTimeDelta ext data) (reqSimulationTime ext data)
          (reqG ext data) (reqCollision ext data) (reqAccelerationRate ext data)
          (reqElasticity ext data) with
      | Except.error msg =>
        { resp := ⟨400, errBody msg⟩
          state := { pools := r0.pools, sockets := st.sockets }
          acts := r0.acts ++ [Act.simConstructed] }
      | Except.ok s =>
        let pool : Pool := { simulation := s, stopFlag := false, joined := false }
        { resp := ⟨200, successBody⟩
          state :=
            { pools := fun k => if k = uid then some pool else r0.pools k
              sockets := st.sockets }
          acts := r0.acts ++ [Act.simConstructed, Act.workerSpawned, Act.poolInserted uid] }

/-- Result of `delete_simulation`: response, state, trace, and the torn-down
pool's final record when one existed. -/
structure DeleteResult where
  resp : Resp
  state : ServerState
  acts : List Act
  torn : Option Pool

/-- Mirrors `delete_simulation` (`routes.rs` lines 135–142): extract `user_id`,
`stop_execution_pool`, answer `{"status":"success"}` (status 200). -/
def delete_simulation (st : ServerState) (data : Value) : DeleteResult :=
  let uid := extractUid data
  let r0 := stop_execution_pool st.pools uid
  { resp := ⟨200, successBody⟩
    state := { pools := r0.pools, sockets := st.sockets }
    acts := r0.acts
    torn := r0.torn }

/-- The `button_press` payload (`handlers.rs`). -/
structure ButtonPress where
  direction : String
  is_pressed : Bool

/-- The `match press.direction.as_str()` arm of `handle_button_press`:
set exactly the named flag, leave the record unchanged on any other
string. -/
def applyDirection (acc : ControllableAcceleration) (dir : String) (b : Bool) :
    ControllableAcceleration :=
  match dir with
  | "up" => { acc with up := b }
  | "down" => { acc with down := b }
  | "left" => { acc with left := b }
  | "right" => { acc with right := b }
  | _ => acc

/-- Mirrors `handle_button_press` (`handlers.rs` lines 16–34): look the pool up by
user id; if present and the simulation has a controllable acceleration,
update it through `applyDirection`; otherwise do nothing.  Total — no error
is ever produced. -/
def handle_button_press (pools : PoolMap) (uid : String) (press : ButtonPress) :
    PoolMap :=
  match pools uid with
  | none => pools
  | some pool =>
    match pool.simulation.controllable_acceleration with
    | none => pools
    | some acc =>
      let sim :=
        { pool.simulation with
            controllable_acceleration :=
              some (applyDirection acc press.direction press.is_pressed) }
      fun k => if k = uid then some { pool with simulation := sim } else pools k

/-- The disconnect handler registered in `configure_socket_io`
(`handlers.rs` lines 55–62): first `stop_execution_pool`, then remove the
sockets entry — in that order. -/
def on_disconnect (st : ServerState) (uid : String) : ServerState × List Act :=
  let r0 := stop_execution_pool st.pools uid
  ({ pools := r0.pools
     sockets := fun k => if k = uid then none else st.sockets k },
   r0.acts ++ [Act.socketRemoved uid])

/-! ## The worker loop (`simulate_loop`, `routes.rs` lines 144–203)

The loop shares the simulation and the atomic stop flag with the rest of
the server.  The embedding abstracts the simulation content away (only the
number of `calculate_step` calls matters to the claims) and makes the
concurrency explicit: every load of the stop flag consumes the next index
of a Boolean stream `stop : ℕ → Bool`, and the run is recorded as a trace
of events — `chk b` for a load returning `b`, `step` for one
`calculate_step`, `emit` for one snapshot emission.  The outer `while` is
given fuel (a bound on its iterations); the theorems show the natural
fuel suffices. -/

/-- One worker-loop event. -/
inductive LoopEv where
  | chk : Bool → LoopEv
  | step : LoopEv
  | emit : LoopEv
deriving DecidableEq

/-- Mirrors `steps_per_emit` as computed at `routes.rs` lines 153–155:
`((1/60) / dt).max(1.0).floor() as usize`. -/
def stepsPerEmit (dt : ℚ) : ℕ :=
  (⌊max ((1 / 60 : ℚ) / dt) 1⌋).toNat

/-- Mirrors `total_steps` as computed at `routes.rs` lines 156–157:
`(T / dt).floor() as usize`. -/
def totalSteps (dt T : ℚ) : ℕ :=
  (⌊T / dt⌋).toNat

/-- The inner batch (`routes.rs` lines 166–174): up to `batch` iterations;
each iteration first loads the stop flag (consuming load index `li`), then
compares `step_count` with `total`; on either it breaks, otherwise it
performs one `calculate_step` and increments the counter.  Returns the next
load index, the final step counter, and the event trace. -/
def innerBatch (stop : ℕ → Bool) (total : ℕ) :
    ℕ → ℕ → ℕ → ℕ × ℕ × List LoopEv
  | 0, li, sc => (li, sc, [])
  | batch + 1, li, sc =>
    let s := stop li
    if s || decide (total ≤ sc) then
      (li + 1, sc, [LoopEv.chk s])
    else
      let r := innerBatch stop total batch (li + 1) (sc + 1)
      (r.1, r.2.1, LoopEv.chk s :: (LoopEv.step :: r.2.2))

/-- The outer `while` (`routes.rs` lines 163–202) with fuel: the loop head
loads the stop flag and compares the counter (exit when stopped or the
horizon is reached, the Boolean result `true` meaning the loop exited
rather than ran out of fuel); otherwise it runs one inner batch, emits one
snapshot, sleeps, and repeats. -/
def simulateLoop (stop : ℕ → Bool) (spe total : ℕ) :
    ℕ → ℕ → ℕ → Bool × ℕ × List LoopEv
  | 0, _, sc => (false, sc, [])
  | fuel + 1, li, sc =>
    let s := stop li
    if s || decide (total ≤ sc) then
      (true, sc, [LoopEv.chk s])
    else
      let r1 := innerBatch stop total spe (li + 1) sc
      let r2 := simulateLoop stop spe total fuel r1.1 r1.2.1
      (r2.1, r2.2.1, LoopEv.chk s :: (r1.2.2 ++ (LoopEv.emit :: r2.2.2)))

/-- Number of `calculate_step` calls in a trace. -/
def countSteps (tr : List LoopEv) : ℕ :=
  tr.countP (fun e => decide (e = LoopEv.step))

/-- Does a trace contain a `step` event? -/
def hasStep (tr : List LoopEv) : Bool :=
  tr.any (fun e => decide (e = LoopEv.step))

/-- State machine for "every `step` is immediately preceded by a load of
the stop flag that returned `false`": the Boolean argument records whether
the previous event was such a load. -/
def guardedFrom : Bool → List LoopEv → Bool
  | _, [] => true
  | ok, LoopEv.step :: r => ok && guardedFrom false r
  | _, LoopEv.chk b :: r => guardedFrom (!b) r
  | _, LoopEv.emit :: r => guardedFrom false r

/-- Every `step` in the trace is immediately preceded by a `chk false`. -/
def guarded (tr : List LoopEv) : Bool :=
  guardedFrom false tr

/-- Does some `step` occur anywhere after a load that returned `true`?
(`false` everywhere means: once the worker observes the stop flag set, it
performs no further integrator step.) -/
def stepsAfterTrue : List LoopEv → Bool
  | [] => false
  | LoopEv.chk true :: r => hasStep r
  | _ :: r => stepsAfterTrue r

/-! ## Snapshot construction (`routes.rs` lines 176–195) -/

/-- The snapshot element for index `i` and body `o`:
`{ "<i>": { "x": o.position.x, "y": o.position.y, "radius": o.radius } }`. -/
def snapEntry (i : ℕ) (o : SpaceObject) : Value :=
  .obj [(toString i,
    .obj [("x", .num o.posX), ("y", .num o.posY), ("radius", .num o.radius)])]

/-- The per-emit snapshot: `space_objects.iter().enumerate().map(...)`
collected in body order. -/
def snapshot (objs : List SpaceObject) : List Value :=
  objs.enum.map (fun p => snapEntry p.1 p.2)

/-- The `update_step` payload as a JSON value (the wire form is its
serialization). -/
def updateStepPayload (objs : List SpaceObject) : Value :=
  .arr (snapshot objs)

/-! ## Concrete instances used as witnesses and counterexamples -/

/-- A concrete simulation record, for witnesses. -/
def trivSimulation : Simulation :=
  { time_delta := 1, simulation_time := 1, g := 1, acceleration_rate := 1,
    elasticity_coefficient := 1, collision_type := (0 : ℤ), space_objects := [],
    controllable_acceleration := none }

/-- A concrete choice of the external physics collaborators, for
witnesses: constructors that always succeed. -/
def trivExt : Ext :=
  { defaultSim := trivSimulation
    movementTryFrom := fun _ => none
    collisionTryFrom := fun _ => none
    objNew := fun n m r p v mt => Except.ok ⟨n, m, r, p.1, p.2, v.1, v.2, mt⟩
    simNew := fun objs td stime gg ct ar ec => Except.ok
      { time_delta := td, simulation_time := stime, g := gg,
        acceleration_rate := ar, elasticity_coefficient := ec,
        collision_type := ct, space_objects := objs,
        controllable_acceleration := none } }

/-- A concrete pool, for witnesses. -/
def cxPool : Pool :=
  { simulation := trivSimulation, stopFlag := false, joined := false }

/-- A state with a running pool for "u1" but no socket entry at all. -/
def cxState : ServerState :=
  { pools := fun k => if k = "u1" then some cxPool else none
    sockets := fun _ => none }

/-- A launch / delete request body naming user "u1". -/
def cxData : Value := .obj [("user_id", .str "u1")]

/-! ## Helper lemmas -/

theorem applyDirection_idem (acc : ControllableAcceleration) (dir : String) (b : Bool) :
    applyDirection (applyDirection acc dir b) dir b = applyDirection acc dir b := by
  unfold applyDirection
  split <;> try rfl
  split <;> simp_all

theorem handle_button_press_eq (pools : PoolMap) (uid : String) (press : ButtonPress)
    (pool : Pool) (acc : ControllableAcceleration) (hp : pools uid = some pool)
    (hc : pool.simulation.controllable_acceleration = some acc) :
    handle_button_press pools uid press =
      fun k => if k = uid then
        some { pool with
                simulation := { pool.simulation with
                                 controllable_acceleration :=
                                   some (applyDirection acc press.direction
                                     press.is_pressed) } }
      else pools k := by
  obtain ⟨dir, b⟩ := press
  simp [handle_button_press, hp, hc]

/-! ## Claims about the button-press handler -/

/-- C6: for every `button_press` event `(direction, is_pressed)`: if a pool
exists for the sender and its simulation has a controllable body, the named
directional flag is set to `is_pressed` through `applyDirection`, which
updates exactly that flag for a recognized direction and nothing for an
unrecognized one; if no pool exists or no controllable body is present, the
registry is returned unchanged.  `handle_button_press` is total, so no
error is ever produced. -/
theorem button_press_dispatch (pools : PoolMap) (uid : String) (dir : String) (b : Bool) :
    (pools uid = none → handle_button_press pools uid ⟨dir, b⟩ = pools) ∧
    (∀ pool, pools uid = some pool →
      (pool.simulation.controllable_acceleration = none →
        handle_button_press pools uid ⟨dir, b⟩ = pools) ∧
      (∀ acc, pool.simulation.controllable_acceleration = some acc →
        handle_button_press pools uid ⟨dir, b⟩ uid =
          some { pool with
                  simulation := { pool.simulation with
                                   controllable_acceleration :=
                                     some (applyDirection acc dir b) } } ∧
        (∀ k, k ≠ uid → handle_button_press pools uid ⟨dir, b⟩ k = pools k))) ∧
    (∀ acc, applyDirection acc "up" b = { acc with up := b }) ∧
    (∀ acc, applyDirection acc "down" b = { acc with down := b }) ∧
    (∀ acc, applyDirection acc "left" b = { acc with left := b }) ∧
    (∀ acc, applyDirection acc "right" b = { acc with right := b }) ∧
    (dir ≠ "up" → dir ≠ "down" → dir ≠ "left" → dir ≠ "right" →
      handle_button_press pools uid ⟨dir, b⟩ = pools) := by
  refine ⟨fun hp => by simp [handle_button_press, hp],
    fun pool hp => ⟨fun hc => by simp [handle_button_press, hp, hc],
      fun acc hc => ⟨by simp [handle_button_press, hp, hc],
        fun k hk => by simp [handle_button_press, hp, hc, hk]⟩⟩,
    fun acc => rfl, fun acc => rfl, fun acc => rfl, fun acc => rfl, ?_⟩
  intro h1 h2 h3 h4
  have hd : ∀ acc : ControllableAcceleration, applyDirection acc dir b = acc := by
    intro acc
    unfold applyDirection
    split
    · exact absurd rfl h1
    · exact absurd rfl h2
    · exact absurd rfl h3
    · exact absurd rfl h4
    · rfl
  cases hp : pools uid with
  | none => simp [handle_button_press, hp]
  | some pool =>
    cases hc : pool.simulation.controllable_acceleration with
    | none => simp [handle_button_press, hp, hc]
    | some acc =>
      funext k
      simp only [handle_button_press, hp, hc, hd acc]
      by_cases hk : k = uid
      · subst hk
        rw [if_pos rfl, ← hc, hp]
      · rw [if_neg hk]

/-- C6 witness: a concrete registry with one pool whose simulation has a
controllable body; pressing "up" sets exactly that flag. -/
theorem button_press_dispatch_witness :
    (let sim : Simulation :=
      { time_delta := 1, simulation_time := 1, g := 1, acceleration_rate := 1,
        elasticity_coefficient := 1, collision_type := (0 : ℤ), space_objects := [],
        controllable_acceleration := some ⟨false, false, false, false⟩ }
     let pool : Pool := { simulation := sim, stopFlag := false, joined := false }
     let pools : PoolMap := fun k => if k = "u1" then some pool else none
     handle_button_press pools "u1" ⟨"up", true⟩ "u1" =
      some { pool with
              simulation := { sim with
                               controllable_acceleration :=
                                 some (applyDirection ⟨false, false, false, false⟩
                                   "up" true) } }) := by
  exact (((button_press_dispatch
    (fun k => if k = "u1" then some _ else none) "u1" "up" true).2.1 _ rfl).2 _ rfl).1

/-- C7: applying the button-press handler twice with the same arguments
yields the same registry (hence the same controllable-acceleration state)
as applying it once, for every starting state. -/
theorem button_press_idempotent (pools : PoolMap) (uid : String) (press : ButtonPress) :
    handle_button_press (handle_button_press pools uid press) uid press =
      handle_button_press pools uid press := by
  obtain ⟨dir, b⟩ := press
  cases hp : pools uid with
  | none => simp [handle_button_press, hp]
  | some pool =>
    cases hc : pool.simulation.controllable_acceleration with
    | none => simp [handle_button_press, hp, hc]
    | some acc =>
      rw [handle_button_press_eq pools uid ⟨dir, b⟩ pool acc hp hc]
      rw [handle_button_press_eq _ uid ⟨dir, b⟩
        { pool with
            simulation := { pool.simulation with
                             controllable_acceleration :=
                               some (applyDirection acc dir b) } }
        (applyDirection acc dir b) (by simp) rfl]
      funext k
      by_cases hk : k = uid
      · subst hk
        simp [applyDirection_idem]
      · simp [hk]

/-! ## Characterization of the launch branches -/

theorem launch_eq_notConnected (ext : Ext) (st : ServerState) (data : Value)
    (h : st.sockets (extractUid data) = none) :
    launch_simulation ext st data =
      { resp := ⟨400, errBody "Socket is not connected"⟩
        state := { pools := (stop_execution_pool st.pools (extractUid data)).pools
                   sockets := st.sockets }
        acts := (stop_execution_pool st.pools (extractUid data)).acts } := by
  simp [launch_simulation, h]

theorem launch_eq_objErr (ext : Ext) (st : ServerState) (data : Value) (u : Unit)
    (hs : st.sockets (extractUid data) = some u) (e : String)
    (he : parseObjects ext data = Except.error e) :
    launch_simulation ext st data =
      { resp := ⟨400, errBody e⟩
        state := { pools := (stop_execution_pool st.pools (extractUid data)).pools
                   sockets := st.sockets }
        acts := (stop_execution_pool st.pools (extractUid data)).acts } := by
  simp [launch_simulation, hs, he]

theorem launch_eq_simErr (ext : Ext) (st : ServerState) (data : Value) (u : Unit)
    (hs : st.sockets (extractUid data) = some u) (objs : List SpaceObject)
    (ho : parseObjects ext data = Except.ok objs) (msg : String)
    (he : ext.simNew objs (reqTimeDelta ext data) (reqSimulationTime ext data)
      (reqG ext data) (reqCollision ext data) (reqAccelerationRate ext data)
      (reqElasticity ext data) = Except.error msg) :
    launch_simulation ext st data =
      { resp := ⟨400, errBody msg⟩
        state := { pools := (stop_execution_pool st.pools (extractUid data)).pools
                   sockets := st.sockets }
        acts := (stop_execution_pool st.pools (extractUid data)).acts ++
          [Act.simConstructed] } := by
  simp [launch_simulation, hs, ho, he]

theorem launch_eq_ok (ext : Ext) (st : ServerState) (data : Value) (u : Unit)
    (hs : st.sockets (extractUid data) = some u) (objs : List SpaceObject)
    (ho : parseObjects ext data = Except.ok objs) (s : Simulation)
    (he : ext.simNew objs (reqTimeDelta ext data) (reqSimulationTime ext data)
      (reqG ext data) (reqCollision ext data) (reqAccelerationRate ext data)
      (reqElasticity ext data) = Except.ok s) :
    launch_simulation ext st data =
      { resp := ⟨200, successBody⟩
        state := { pools := fun k => if k = extractUid data then
                     some { simulation := s, stopFlag := false, joined := false }
                   else (stop_execution_pool st.pools (extractUid data)).pools k
                   sockets := st.sockets }
        acts := (stop_execution_pool st.pools (extractUid data)).acts ++
          [Act.simConstructed, Act.workerSpawned, Act.poolInserted (extractUid data)] } := by
  simp [launch_simulation, hs, ho, he]

theorem stop_execution_pool_at_uid (pools : PoolMap) (uid : String) :
    (stop_execution_pool pools uid).pools uid = none := by
  cases hp : pools uid with
  | none => simp [stop_execution_pool, hp, hp]
  | some p => simp [stop_execution_pool, hp]

theorem stop_execution_pool_absent (pools : PoolMap) (uid : String)
    (h : pools uid = none) : (stop_execution_pool pools uid).pools = pools := by
  simp [stop_execution_pool, h]

theorem stop_execution_pool_other (pools : PoolMap) (uid k : String) (hk : k ≠ uid) :
    (stop_execution_pool pools uid).pools k = pools k := by
  cases hp : pools uid with
  | none => simp [stop_execution_pool, hp]
  | some p => simp [stop_execution_pool, hp, hk]

/-! ## Claims about launch -/

/-- C2: when the requesting user has no entry in the sockets table,
`launch_simulation` answers 400 `{"status":"error","message":"Socket is
not connected"}`, never calls `Simulation::new`, never spawns a worker,
and never inserts a pool. -/
theorem launch_not_connected (ext : Ext) (st : ServerState) (data : Value)
    (h : st.sockets (extractUid data) = none) :
    (launch_simulation ext st data).resp.status = 400 ∧
    (launch_simulation ext st data).resp.body = errBody "Socket is not connected" ∧
    Act.simConstructed ∉ (launch_simulation ext st data).acts ∧
    Act.workerSpawned ∉ (launch_simulation ext st data).acts ∧
    (∀ w, Act.poolInserted w ∉ (launch_simulation ext st data).acts) ∧
    (launch_simulation ext st data).state.sockets = st.sockets := by
  rw [launch_eq_notConnected ext st data h]
  cases hp : st.pools (extractUid data) with
  | none => simp [stop_execution_pool, hp]
  | some p => simp [stop_execution_pool, hp]

/-- C2 witness: a concrete state with no socket for the requesting user. -/
theorem launch_not_connected_witness :
    (let st : ServerState := { pools := fun _ => none, sockets := fun _ => none }
     let data : Value := .obj [("user_id", .str "u9")]
     (launch_simulation trivExt st data).resp.status = 400 ∧
     (launch_simulation trivExt st data).resp.body = errBody "Socket is not connected" ∧
     Act.simConstructed ∉ (launch_simulation trivExt st data).acts ∧
     Act.workerSpawned ∉ (launch_simulation trivExt st data).acts ∧
     (∀ w, Act.poolInserted w ∉ (launch_simulation trivExt st data).acts) ∧
     (launch_simulation trivExt st data).state.sockets =
       (fun _ => none : SockMap)) :=
  launch_not_connected trivExt
    { pools := fun _ => none, sockets := fun _ => none }
    (.obj [("user_id", .str "u9")]) rfl

/-- C1 counterexample: `launch_simulation` calls `stop_execution_pool`
before validating anything (`routes.rs` line 26), so a launch that fails
with "Socket is not connected" has already torn the prior pool down.  In
`cxState`, user "u1" has a running pool and no socket; the launch fails
(status 400) yet the prior pool is gone from the registry — refuting the
claim that a failed launch leaves the pool registry unchanged. -/
theorem launch_failure_drops_prior_pool_cx :
    cxState.pools "u1" = some cxPool ∧
    (launch_simulation trivExt cxState cxData).resp.status = 400 ∧
    (launch_simulation trivExt cxState cxData).resp.body =
      errBody "Socket is not connected" ∧
    (launch_simulation trivExt cxState cxData).state.pools "u1" = none := by
  refine ⟨rfl, ?_, ?_, ?_⟩ <;>
    rw [launch_eq_notConnected trivExt cxState cxData rfl] <;>
    simp [cxState, stop_execution_pool, cxData, extractUid, Value.get, Value.as_str]

/-- C1 (amended): on every launch request the prior pool for the
requesting client is torn down unconditionally at the start of processing;
hence when the launch fails (socket not connected, a failing
`SpaceObject::new`, or a failing `Simulation::new`) the registry holds no
pool for that client — the prior pool is not preserved — while entries of
other clients are never touched; on success the client's entry is the
freshly spawned pool. -/
theorem launch_always_tears_down_prior (ext : Ext) (st : ServerState) (data : Value) :
    (∀ k, k ≠ extractUid data →
      (launch_simulation ext st data).state.pools k = st.pools k) ∧
    ((launch_simulation ext st data).resp.status ≠ 200 →
      (launch_simulation ext st data).state.pools (extractUid data) = none) ∧
    (∀ p, st.pools (extractUid data) = some p →
      Act.poolRemoved (extractUid data) ∈ (launch_simulation ext st data).acts) ∧
    ((launch_simulation ext st data).resp.status = 200 →
      ∃ s, (launch_simulation ext st data).state.pools (extractUid data) =
        some { simulation := s, stopFlag := false, joined := false }) := by
  have hacts : ∀ p, st.pools (extractUid data) = some p →
      (stop_execution_pool st.pools (extractUid data)).acts =
        [Act.poolRemoved (extractUid data), Act.stopSet (extractUid data),
         Act.workerJoined (extractUid data)] := by
    intro p hp
    simp [stop_execution_pool, hp]
  cases hs : st.sockets (extractUid data) with
  | none =>
    rw [launch_eq_notConnected ext st data hs]
    refine ⟨fun k hk => stop_execution_pool_other st.pools _ k hk,
      fun _ => stop_execution_pool_at_uid st.pools _,
      fun p hp => by simp [hacts p hp], fun h => by simp at h⟩
  | some u =>
    cases ho : parseObjects ext data with
    | error e =>
      rw [launch_eq_objErr ext st data u hs e ho]
      refine ⟨fun k hk => stop_execution_pool_other st.pools _ k hk,
        fun _ => stop_execution_pool_at_uid st.pools _,
        fun p hp => by simp [hacts p hp], fun h => by simp at h⟩
    | ok objs =>
      cases he : ext.simNew objs (reqTimeDelta ext data) (reqSimulationTime ext data)
          (reqG ext data) (reqCollision ext data) (reqAccelerationRate ext data)
          (reqElasticity ext data) with
      | error msg =>
        rw [launch_eq_simErr ext st data u hs objs ho msg he]
        refine ⟨fun k hk => stop_execution_pool_other st.pools _ k hk,
          fun _ => stop_execution_pool_at_uid st.pools _,
          fun p hp => by simp [hacts p hp], fun h => by simp at h⟩
      | ok s =>
        rw [launch_eq_ok ext st data u hs objs ho s he]
        refine ⟨fun k hk => ?_, fun h => by simp at h,
          fun p hp => by simp [hacts p hp], fun _ => ⟨s, by simp⟩⟩
        simp only [if_neg hk]
        exact stop_execution_pool_other st.pools _ k hk

/-- C1 (amended) witness: at `cxState` (pool for "u1", no socket) the
failed launch leaves no pool for "u1" and the teardown action occurred. -/
theorem launch_always_tears_down_prior_witness :
    ("u2" ≠ extractUid cxData →
      (launch_simulation trivExt cxState cxData).state.pools "u2" =
        cxState.pools "u2") ∧
    ((launch_simulation trivExt cxState cxData).resp.status ≠ 200 →
      (launch_simulation trivExt cxState cxData).state.pools (extractUid cxData) =
        none) ∧
    (cxState.pools (extractUid cxData) = some cxPool →
      Act.poolRemoved (extractUid cxData) ∈
        (launch_simulation trivExt cxState cxData).acts) :=
  ⟨fun h2 => (launch_always_tears_down_prior trivExt cxState cxData).1 "u2" h2,
   fun hne => (launch_always_tears_down_prior trivExt cxState cxData).2.1 hne,
   fun hp => (launch_always_tears_down_prior trivExt cxState cxData).2.2.1 cxPool hp⟩

/-! ## Claims about delete and disconnect -/

/-- C8: `delete_simulation` always answers 200 `{"status":"success"}`;
when a pool exists for the user it is extracted, its stop flag stored
`true` and its worker joined (the `torn` record and the action trace);
when none exists the registry is untouched; other users are never touched;
and a second delete with the same body leaves the registry exactly as the
first did. -/
theorem delete_simulation_spec (st : ServerState) (data : Value) :
    (delete_simulation st data).resp.status = 200 ∧
    (delete_simulation st data).resp.body = successBody ∧
    (∀ p, st.pools (extractUid data) = some p →
      (delete_simulation st data).state.pools (extractUid data) = none ∧
      (delete_simulation st data).torn =
        some { p with stopFlag := true, joined := true } ∧
      (delete_simulation st data).acts =
        [Act.poolRemoved (extractUid data), Act.stopSet (extractUid data),
         Act.workerJoined (extractUid data)]) ∧
    (st.pools (extractUid data) = none →
      (delete_simulation st data).state.pools = st.pools ∧
      (delete_simulation st data).torn = none) ∧
    (∀ k, k ≠ extractUid data →
      (delete_simulation st data).state.pools k = st.pools k) ∧
    (delete_simulation (delete_simulation st data).state data).state.pools =
      (delete_simulation st data).state.pools := by
  refine ⟨rfl, rfl, ?_, ?_, ?_, ?_⟩
  · intro p hp
    simp [delete_simulation, stop_execution_pool, hp]
  · intro hp
    simp [delete_simulation, stop_execution_pool, hp]
  · intro k hk
    exact stop_execution_pool_other st.pools _ k hk
  · exact stop_execution_pool_absent (delete_simulation st data).state.pools
      (extractUid data) (stop_execution_pool_at_uid st.pools (extractUid data))

/-- C8 witness: deleting at `cxState` (a pool present for "u1"). -/
theorem delete_simulation_spec_witness :
    cxState.pools (extractUid cxData) = some cxPool ∧
    (delete_simulation cxState cxData).state.pools (extractUid cxData) = none ∧
    (delete_simulation cxState cxData).torn =
      some { cxPool with stopFlag := true, joined := true } :=
  ⟨rfl,
   ((delete_simulation_spec cxState cxData).2.2.1 cxPool rfl).1,
   ((delete_simulation_spec cxState cxData).2.2.1 cxPool rfl).2.1⟩

/-- C9: the disconnect handler removes the pool (tearing the worker down:
stop flag stored, worker joined) strictly before it removes the sockets
entry — the action trace is exactly `poolRemoved; stopSet; workerJoined;
socketRemoved` when a pool exists, and afterwards neither the pool nor the
socket entry remains; other clients are untouched. -/
theorem disconnect_order (st : ServerState) (uid : String) :
    (on_disconnect st uid).1.pools uid = none ∧
    (on_disconnect st uid).1.sockets uid = none ∧
    (∀ p, st.pools uid = some p →
      (on_disconnect st uid).2 =
        [Act.poolRemoved uid, Act.stopSet uid, Act.workerJoined uid,
         Act.socketRemoved uid]) ∧
    (st.pools uid = none → (on_disconnect st uid).2 = [Act.socketRemoved uid]) ∧
    (∀ k, k ≠ uid → (on_disconnect st uid).1.pools k = st.pools k ∧
      (on_disconnect st uid).1.sockets k = st.sockets k) := by
  refine ⟨stop_execution_pool_at_uid st.pools uid, by simp [on_disconnect], ?_, ?_, ?_⟩
  · intro p hp
    simp [on_disconnect, stop_execution_pool, hp]
  · intro hp
    simp [on_disconnect, stop_execution_pool, hp]
  · intro k hk
    exact ⟨stop_execution_pool_other st.pools uid k hk, by simp [on_disconnect, hk]⟩

/-- C9 witness: disconnecting "u1" at `cxState`. -/
theorem disconnect_order_witness :
    cxState.pools "u1" = some cxPool ∧
    (on_disconnect cxState "u1").2 =
      [Act.poolRemoved "u1", Act.stopSet "u1", Act.workerJoined "u1",
       Act.socketRemoved "u1"] :=
  ⟨rfl, (disconnect_order cxState "u1").2.2.1 cxPool rfl⟩

/-- C10: a request body whose `user_id` is missing or not a string is not
rejected: the user id falls back to the empty string
(`as_str().unwrap_or_default()`), `delete_simulation` still answers 200
success, and `launch_simulation` proceeds to the socket lookup under `""`,
failing with the not-connected error when no socket `""` exists. -/
theorem missing_user_id_defaults_to_empty (st : ServerState) (data : Value)
    (h : (data.get "user_id").as_str = none) :
    extractUid data = "" ∧
    (delete_simulation st data).resp.status = 200 ∧
    (delete_simulation st data).resp.body = successBody ∧
    (∀ ext : Ext, st.sockets "" = none →
      (launch_simulation ext st data).resp.status = 400 ∧
      (launch_simulation ext st data).resp.body =
        errBody "Socket is not connected") := by
  have hu : extractUid data = "" := by simp [extractUid, h]
  refine ⟨hu, rfl, rfl, fun ext hs => ?_⟩
  rw [launch_eq_notConnected ext st data (by rw [hu]; exact hs)]
  exact ⟨rfl, rfl⟩

/-- C10 witness: a body with a numeric `user_id` and one with no
`user_id` field at all, against a state with no socket for `""`. -/
theorem missing_user_id_defaults_to_empty_witness :
    ((Value.obj [("user_id", .num 3)]).get "user_id").as_str = none ∧
    ((Value.obj []).get "user_id").as_str = none ∧
    extractUid (Value.obj [("user_id", .num 3)]) = "" ∧
    (launch_simulation trivExt cxState (Value.obj [])).resp.status = 400 :=
  ⟨rfl, rfl,
   (missing_user_id_defaults_to_empty cxState (Value.obj [("user_id", .num 3)]) rfl).1,
   ((missing_user_id_defaults_to_empty cxState (Value.obj []) rfl).2.2.2
     trivExt rfl).1⟩

/-! ## Claims about the worker cadence and the snapshot -/

/-- C4: for every `dt > 0` and `T > 0`, the code's
`floor(max((1/60)/dt, 1))` equals the spec's `max(1, floor((1/60)/dt))`,
and `total_steps` is `floor(T/dt)`. -/
theorem cadence_constants (dt T : ℚ) (hdt : 0 < dt) (hT : 0 < T) :
    stepsPerEmit dt = max 1 ((⌊(1 / 60 : ℚ) / dt⌋).toNat) ∧
    totalSteps dt T = (⌊T / dt⌋).toNat := by
  refine ⟨?_, rfl⟩
  unfold stepsPerEmit
  rcases lt_or_le ((1 / 60 : ℚ) / dt) 1 with h | h
  · rw [max_eq_right h.le]
    have h1 : ⌊(1 / 60 : ℚ) / dt⌋ < 1 := Int.floor_lt.mpr (by exact_mod_cast h)
    rw [Int.floor_one]
    omega
  · rw [max_eq_left h]
    have h1 : (1 : ℤ) ≤ ⌊(1 / 60 : ℚ) / dt⌋ := Int.le_floor.mpr (by exact_mod_cast h)
    omega

/-- C4 witness: `dt = 1/100`, `T = 1/50`. -/
theorem cadence_constants_witness :
    0 < (1 / 100 : ℚ) ∧ 0 < (1 / 50 : ℚ) ∧
    (stepsPerEmit (1 / 100) = max 1 ((⌊(1 / 60 : ℚ) / (1 / 100)⌋).toNat) ∧
     totalSteps (1 / 100) (1 / 50) = (⌊(1 / 50 : ℚ) / (1 / 100)⌋).toNat) :=
  ⟨by norm_num, by norm_num,
   cadence_constants (1 / 100) (1 / 50) (by norm_num) (by norm_num)⟩

/-- C5: the `update_step` payload is the serialization of the ordered
sequence built from `space_objects.iter().enumerate()`: it has exactly one
element per body, and for body `o` at index `i` the `i`-th element is the
single-key mapping `{ toString i : { "x": o.posX, "y": o.posY,
"radius": o.radius } }`. -/
theorem update_step_shape (objs : List SpaceObject) :
    (snapshot objs).length = objs.length ∧
    (∀ i o, objs.get? i = some o →
      (snapshot objs).get? i =
        some (Value.obj [(toString i,
          Value.obj [("x", Value.num o.posX), ("y", Value.num o.posY),
            ("radius", Value.num o.radius)])])) ∧
    updateStepPayload objs = Value.arr (snapshot objs) := by
  refine ⟨by simp [snapshot], ?_, rfl⟩
  intro i o ho
  rw [List.get?_eq_getElem?] at ho
  simp [snapshot, List.getElem?_map, List.getElem?_enum, snapEntry,
    List.get?_eq_getElem?, ho]

/-- C5 witness: a one-body simulation; the payload is a one-element
sequence whose element is the single-key mapping for index 0. -/
theorem update_step_shape_witness :
    ([⟨"a", 1, 1, 2, 3, 0, 0, MovementType.static⟩] :
        List SpaceObject).get? 0 = some ⟨"a", 1, 1, 2, 3, 0, 0, MovementType.static⟩ ∧
    (snapshot [⟨"a", 1, 1, 2, 3, 0, 0, MovementType.static⟩]).get? 0 =
      some (Value.obj [(toString 0,
        Value.obj [("x", Value.num 2), ("y", Value.num 3),
          ("radius", Value.num 1)])]) :=
  ⟨rfl, (update_step_shape [⟨"a", 1, 1, 2, 3, 0, 0, MovementType.static⟩]).2.1 0
    ⟨"a", 1, 1, 2, 3, 0, 0, MovementType.static⟩ rfl⟩

/-! ## Worker-loop lemmas -/

@[simp] theorem countSteps_nil : countSteps [] = 0 := rfl

@[simp] theorem countSteps_chk (b : Bool) (tr : List LoopEv) :
    countSteps (LoopEv.chk b :: tr) = countSteps tr := by
  simp [countSteps]

@[simp] theorem countSteps_emit (tr : List LoopEv) :
    countSteps (LoopEv.emit :: tr) = countSteps tr := by
  simp [countSteps]

@[simp] theorem countSteps_step (tr : List LoopEv) :
    countSteps (LoopEv.step :: tr) = countSteps tr + 1 := by
  simp [countSteps]

@[simp] theorem countSteps_append (t1 t2 : List LoopEv) :
    countSteps (t1 ++ t2) = countSteps t1 + countSteps t2 := by
  simp [countSteps, List.countP_append]

@[simp] theorem hasStep_nil : hasStep [] = false := rfl

@[simp] theorem hasStep_chk (b : Bool) (tr : List LoopEv) :
    hasStep (LoopEv.chk b :: tr) = hasStep tr := by
  simp [hasStep]

@[simp] theorem hasStep_emit (tr : List LoopEv) :
    hasStep (LoopEv.emit :: tr) = hasStep tr := by
  simp [hasStep]

theorem innerBatch_count (stop : ℕ → Bool) (total batch li sc : ℕ) :
    sc ≤ (innerBatch stop total batch li sc).2.1 ∧
    countSteps (innerBatch stop total batch li sc).2.2 =
      (innerBatch stop total batch li sc).2.1 - sc := by
  induction batch generalizing li sc with
  | zero => simp [innerBatch]
  | succ b ih =>
    by_cases hc : (stop li || decide (total ≤ sc)) = true
    · simp [innerBatch, hc]
    · obtain ⟨ih1, ih2⟩ := ih (li + 1) (sc + 1)
      simp only [innerBatch, hc, if_false, Bool.false_eq_true, countSteps_chk,
        countSteps_step]
      exact ⟨by omega, by omega⟩

theorem innerBatch_false_sc (total batch li sc : ℕ) (h : sc ≤ total) :
    (innerBatch (fun _ => false) total batch li sc).2.1 = min (sc + batch) total := by
  induction batch generalizing li sc with
  | zero => simp [innerBatch]; omega
  | succ b ih =>
    by_cases hc : total ≤ sc
    · have hsc : sc = total := le_antisymm h hc
      simp [innerBatch, hc]
      omega
    · have hrec := ih (li + 1) (sc + 1) (by omega)
      simp only [innerBatch, decide_eq_false hc, Bool.false_or, if_false,
        Bool.false_eq_true]
      omega

theorem simulateLoop_count (stop : ℕ → Bool) (spe total fuel li sc : ℕ) :
    sc ≤ (simulateLoop stop spe total fuel li sc).2.1 ∧
    countSteps (simulateLoop stop spe total fuel li sc).2.2 =
      (simulateLoop stop spe total fuel li sc).2.1 - sc := by
  induction fuel generalizing li sc with
  | zero => simp [simulateLoop]
  | succ f ih =>
    by_cases hc : (stop li || decide (total ≤ sc)) = true
    · simp [simulateLoop, hc]
    · obtain ⟨hi1, hi2⟩ := innerBatch_count stop total spe (li + 1) sc
      obtain ⟨ih1, ih2⟩ := ih (innerBatch stop total spe (li + 1) sc).1
        (innerBatch stop total spe (li + 1) sc).2.1
      simp only [simulateLoop, hc, if_false, Bool.false_eq_true, countSteps_chk,
        countSteps_append, countSteps_emit]
      exact ⟨by omega, by omega⟩

theorem simulateLoop_false (spe total : ℕ) (hspe : 1 ≤ spe) (fuel li sc : ℕ)
    (h1 : sc ≤ total) (h2 : total < sc + fuel) :
    (simulateLoop (fun _ => false) spe total fuel li sc).1 = true ∧
    (simulateLoop (fun _ => false) spe total fuel li sc).2.1 = total := by
  induction fuel generalizing li sc with
  | zero => omega
  | succ f ih =>
    by_cases hc : total ≤ sc
    · have hsc : sc = total := le_antisymm h1 hc
      simp [simulateLoop, hc, hsc]
    · have hsc2 : (innerBatch (fun _ => false) total spe (li + 1) sc).2.1 =
        min (sc + spe) total := innerBatch_false_sc total spe (li + 1) sc h1
      have hrec := ih (innerBatch (fun _ => false) total spe (li + 1) sc).1
        (innerBatch (fun _ => false) total spe (li + 1) sc).2.1
        (by rw [hsc2]; omega) (by rw [hsc2]; omega)
      simp only [simulateLoop, decide_eq_false hc, Bool.or_false, if_false,
        Bool.false_eq_true]
      exact hrec

@[simp] theorem guardedFrom_nil (ok : Bool) : guardedFrom ok [] = true := rfl

@[simp] theorem guardedFrom_chk (ok b : Bool) (tr : List LoopEv) :
    guardedFrom ok (LoopEv.chk b :: tr) = guardedFrom (!b) tr := rfl

@[simp] theorem guardedFrom_step (ok : Bool) (tr : List LoopEv) :
    guardedFrom ok (LoopEv.step :: tr) = (ok && guardedFrom false tr) := rfl

@[simp] theorem guardedFrom_emit (ok : Bool) (tr : List LoopEv) :
    guardedFrom ok (LoopEv.emit :: tr) = guardedFrom false tr := rfl

@[simp] theorem stepsAfterTrue_nil : stepsAfterTrue [] = false := rfl

@[simp] theorem stepsAfterTrue_chk_true (tr : List LoopEv) :
    stepsAfterTrue (LoopEv.chk true :: tr) = hasStep tr := rfl

@[simp] theorem stepsAfterTrue_chk_false (tr : List LoopEv) :
    stepsAfterTrue (LoopEv.chk false :: tr) = stepsAfterTrue tr := rfl

@[simp] theorem stepsAfterTrue_step (tr : List LoopEv) :
    stepsAfterTrue (LoopEv.step :: tr) = stepsAfterTrue tr := rfl

@[simp] theorem stepsAfterTrue_emit (tr : List LoopEv) :
    stepsAfterTrue (LoopEv.emit :: tr) = stepsAfterTrue tr := rfl

theorem innerBatch_guarded (stop : ℕ → Bool) (total batch li sc : ℕ) (ok : Bool)
    (rest : List LoopEv) (h : guardedFrom false rest = true) :
    guardedFrom ok ((innerBatch stop total batch li sc).2.2 ++ LoopEv.emit :: rest) =
      true := by
  induction batch generalizing li sc ok with
  | zero => simpa [innerBatch] using h
  | succ b ih =>
    cases hs : stop li with
    | true => simpa [innerBatch, hs] using h
    | false =>
      by_cases hts : total ≤ sc
      · simpa [innerBatch, hs, hts] using h
      · simp only [innerBatch, hs, decide_eq_false hts, Bool.or_false, if_false,
          Bool.false_eq_true, List.cons_append, guardedFrom_chk, guardedFrom_step,
          Bool.not_false, Bool.true_and]
        exact ih (li + 1) (sc + 1) false

theorem simulateLoop_guarded (stop : ℕ → Bool) (spe total fuel li sc : ℕ) (ok : Bool) :
    guardedFrom ok (simulateLoop stop spe total fuel li sc).2.2 = true := by
  induction fuel generalizing li sc ok with
  | zero => simp [simulateLoop]
  | succ f ih =>
    by_cases hc : (stop li || decide (total ≤ sc)) = true
    · simp [simulateLoop, hc]
    · simp only [simulateLoop, hc, if_false, Bool.false_eq_true, guardedFrom_chk]
      exact innerBatch_guarded stop total spe (li + 1) sc _ _
        (ih (innerBatch stop total spe (li + 1) sc).1
          (innerBatch stop total spe (li + 1) sc).2.1 false)

theorem simulateLoop_stopped_noStep (k spe total fuel li sc : ℕ) (h : k ≤ li) :
    hasStep (simulateLoop (fun i => decide (k ≤ i)) spe total fuel li sc).2.2 =
      false := by
  cases fuel with
  | zero => simp [simulateLoop]
  | succ f => simp [simulateLoop, h]

theorem innerBatch_sat (k total batch li sc : ℕ) (rest : List LoopEv)
    (h1 : stepsAfterTrue rest = false)
    (h2 : k < (innerBatch (fun i => decide (k ≤ i)) total batch li sc).1 →
      hasStep rest = false) :
    stepsAfterTrue ((innerBatch (fun i => decide (k ≤ i)) total batch li sc).2.2 ++
      rest) = false := by
  induction batch generalizing li sc with
  | zero => simpa [innerBatch] using h1
  | succ b ih =>
    by_cases hkli : k ≤ li
    · have hup : (innerBatch (fun i => decide (k ≤ i)) total (b + 1) li sc).1 =
        li + 1 := by
        simp [innerBatch, hkli]
      simp only [innerBatch, decide_eq_true hkli, Bool.true_or, if_true,
        List.cons_append, stepsAfterTrue_chk_true]
      exact h2 (by omega)
    · by_cases hts : total ≤ sc
      · simp only [innerBatch, decide_eq_false hkli, Bool.false_or,
          decide_eq_true hts, if_true, List.cons_append, stepsAfterTrue_chk_false]
        simpa using h1
      · have hup : (innerBatch (fun i => decide (k ≤ i)) total (b + 1) li sc).1 =
          (innerBatch (fun i => decide (k ≤ i)) total b (li + 1) (sc + 1)).1 := by
          simp [innerBatch, hkli, hts]
        simp only [innerBatch, decide_eq_false hkli, Bool.false_or,
          decide_eq_false hts, if_false, Bool.false_eq_true, List.cons_append,
          stepsAfterTrue_chk_false, stepsAfterTrue_step]
        exact ih (li + 1) (sc + 1) (fun hlt => h2 (by rw [hup]; exact hlt))

theorem simulateLoop_sat (k spe total fuel li sc : ℕ) :
    stepsAfterTrue
      (simulateLoop (fun i => decide (k ≤ i)) spe total fuel li sc).2.2 = false := by
  induction fuel generalizing li sc with
  | zero => simp [simulateLoop]
  | succ f ih =>
    by_cases hkli : k ≤ li
    · simp [simulateLoop, hkli]
    · by_cases hts : total ≤ sc
      · simp [simulateLoop, hkli, hts]
      · simp only [simulateLoop, decide_eq_false hkli, Bool.false_or,
          decide_eq_false hts, if_false, Bool.false_eq_true,
          stepsAfterTrue_chk_false]
        apply innerBatch_sat
        · simpa using ih (innerBatch (fun i => decide (k ≤ i)) total spe (li + 1) sc).1
            (innerBatch (fun i => decide (k ≤ i)) total spe (li + 1) sc).2.1
        · intro hlt
          simpa using simulateLoop_stopped_noStep k spe total f
            (innerBatch (fun i => decide (k ≤ i)) total spe (li + 1) sc).1
            (innerBatch (fun i => decide (k ≤ i)) total spe (li + 1) sc).2.1
            (by omega)

theorem stepsPerEmit_pos (dt : ℚ) : 1 ≤ stepsPerEmit dt := by
  have h1 : (1 : ℤ) ≤ ⌊max ((1 / 60 : ℚ) / dt) 1⌋ := by
    rw [Int.le_floor]
    exact_mod_cast le_max_right _ _
  unfold stepsPerEmit
  omega

/-- C3: for every `dt > 0` and `T > 0`, a worker run whose stop flag is
never set performs exactly `floor(T/dt)` `calculate_step` calls and then
exits its loop (the natural fuel bound suffices and the exit flag is set);
moreover for every behaviour of the stop flag every `step` event in the
trace is immediately preceded by a load of the flag returning `false`
(the flag is checked before each step inside the inner batch), and for a
flag that becomes set at load `k` and stays set — the only transition the
server ever performs — no `step` event occurs anywhere after a load
returning `true`. -/
theorem worker_step_budget (dt T : ℚ) (hdt : 0 < dt) (hT : 0 < T) :
    ((simulateLoop (fun _ => false) (stepsPerEmit dt) (totalSteps dt T)
        (totalSteps dt T + 1) 0 0).1 = true ∧
     countSteps (simulateLoop (fun _ => false) (stepsPerEmit dt) (totalSteps dt T)
        (totalSteps dt T + 1) 0 0).2.2 = totalSteps dt T) ∧
    (∀ stop : ℕ → Bool, ∀ fuel li sc : ℕ,
      guarded (simulateLoop stop (stepsPerEmit dt) (totalSteps dt T)
        fuel li sc).2.2 = true) ∧
    (∀ k fuel li sc : ℕ,
      stepsAfterTrue (simulateLoop (fun i => decide (k ≤ i)) (stepsPerEmit dt)
        (totalSteps dt T) fuel li sc).2.2 = false) := by
  obtain ⟨hfin, hsc⟩ := simulateLoop_false (stepsPerEmit dt) (totalSteps dt T)
    (stepsPerEmit_pos dt) (totalSteps dt T + 1) 0 0 (Nat.zero_le _) (by omega)
  obtain ⟨-, hcount⟩ := simulateLoop_count (fun _ => false) (stepsPerEmit dt)
    (totalSteps dt T) (totalSteps dt T + 1) 0 0
  refine ⟨⟨hfin, by omega⟩,
    fun stop fuel li sc => simulateLoop_guarded stop _ _ fuel li sc false,
    fun k fuel li sc => simulateLoop_sat k _ _ fuel li sc⟩

/-- C3 witness: `dt = 1`, `T = 2` — the unstopped run performs exactly
`floor(2/1) = 2` steps and exits. -/
theorem worker_step_budget_witness :
    0 < (1 : ℚ) ∧ 0 < (2 : ℚ) ∧
    (simulateLoop (fun _ => false) (stepsPerEmit 1) (totalSteps 1 2)
       (totalSteps 1 2 + 1) 0 0).1 = true ∧
    countSteps (simulateLoop (fun _ => false) (stepsPerEmit 1) (totalSteps 1 2)
       (totalSteps 1 2 + 1) 0 0).2.2 = totalSteps 1 2 :=
  ⟨by norm_num, by norm_num,
   (worker_step_budget 1 2 (by norm_num) (by norm_num)).1.1,
   (worker_step_budget 1 2 (by norm_num) (by norm_num)).1.2⟩

end GravityBackend
